import Mathlib

/-!
Verification of the worker WebSocket channel (`pkg/channels/worker_ws.go`).

The Go source is embedded shallowly: pure helper functions become Lean
functions on `String`/`List`, JSON values decoded by `encoding/json` into
`any` become the inductive `Json` (numbers modelled as exact decimals, the
claims under verification never depending on float64 width), and the
channel's mutable fields become the record `ChannelState` with each method
a state-passing function.
-/

namespace WorkerWS

/-- Character class trimmed by Go's `strings.TrimSpace` (Latin-1 range of
`unicode.IsSpace`). -/
def isGoSpace (c : Char) : Bool :=
  c = ' ' || c = '\t' || c = '\n' || c = '\x0B' || c = '\x0C' || c = '\r' ||
  c = '\x85' || c = '\xA0'

/-- Embedding of `strings.TrimSpace`. -/
def trimSpace (s : String) : String :=
  String.mk (((s.toList.dropWhile isGoSpace).reverse.dropWhile isGoSpace).reverse)

/-- ASCII lower-casing of one character. -/
def toLowerAscii (c : Char) : Char :=
  if 'A' ≤ c && c ≤ 'Z' then Char.ofNat (c.toNat + 32) else c

/-- Embedding of `strings.EqualFold` restricted to ASCII folding, the only
folding the source exercises (its sole use compares against the ASCII
literal "all"). -/
def asciiEqualFold (a b : String) : Bool :=
  a.toList.map toLowerAscii = b.toList.map toLowerAscii

/-- A JSON number as an exact decimal: the value `mant * 10 ^ exp10`. Go
decodes numbers to float64; the verified claims never depend on float64
width or rounding, so the exact decimal read from the document stands in
for it. -/
structure JNum where
  mant : Int
  exp10 : Int
deriving DecidableEq, Repr

/-- JSON values as decoded by `encoding/json` into `any`: `null`, booleans,
numbers (float64 in Go, modelled by the exact decimal `JNum`), strings,
arrays (`[]any`) and objects (`map[string]any`, modelled as the association
list in document order; Go's map semantics make the last binding of a key
win, which `lookupJson` mirrors). -/
inductive Json where
  | null
  | bool (b : Bool)
  | num (n : JNum)
  | str (s : String)
  | arr (elems : List Json)
  | obj (fields : List (String × Json))
deriving Repr

/-- Lookup of a key in a decoded object: the last binding wins, as it does
when Go folds duplicate keys into a `map[string]any`. -/
def lookupJson (kvs : List (String × Json)) (k : String) : Option Json :=
  kvs.foldl (fun acc kv => if kv.1 = k then some kv.2 else acc) none

/-- Whitespace skipped between JSON tokens by `encoding/json`'s scanner. -/
def isJsonWs (c : Char) : Bool :=
  c = ' ' || c = '\t' || c = '\n' || c = '\r'

/-- Drop inter-token whitespace. -/
def skipWs (cs : List Char) : List Char := cs.dropWhile isJsonWs

/-- Value of one hexadecimal digit, by code point. -/
def hexVal (c : Char) : Option Nat :=
  let v := c.toNat
  if 48 ≤ v ∧ v ≤ 57 then some (v - 48)
  else if 97 ≤ v ∧ v ≤ 102 then some (v - 87)
  else if 65 ≤ v ∧ v ≤ 70 then some (v - 55)
  else none

/-- Decoding of a `\uXXXX` escape body: the four hex digits and, for a high
surrogate, a following low-surrogate escape, combined as Go's decoder
combines them; unpaired surrogates decode to U+FFFD. -/
def parseUnicodeEscape : List Char → Option (Char × List Char)
  | a :: b :: c :: d :: r2 =>
    match hexVal a, hexVal b, hexVal c, hexVal d with
    | some va, some vb, some vc, some vd =>
      let n := ((va * 16 + vb) * 16 + vc) * 16 + vd
      if 0xD800 ≤ n ∧ n < 0xDC00 then
        match r2 with
        | '\\' :: 'u' :: a2 :: b2 :: c2 :: d2 :: r4 =>
          match hexVal a2, hexVal b2, hexVal c2, hexVal d2 with
          | some w1, some w2, some w3, some w4 =>
            let m := ((w1 * 16 + w2) * 16 + w3) * 16 + w4
            if 0xDC00 ≤ m ∧ m < 0xE000 then
              some (Char.ofNat (0x10000 + (n - 0xD800) * 0x400 + (m - 0xDC00)), r4)
            else some ('�', '\\' :: 'u' :: a2 :: b2 :: c2 :: d2 :: r4)
          | _, _, _, _ => some ('�', '\\' :: 'u' :: a2 :: b2 :: c2 :: d2 :: r4)
        | rOther => some ('�', rOther)
      else if 0xDC00 ≤ n ∧ n < 0xE000 then some ('�', r2)
      else some (Char.ofNat n, r2)
    | _, _, _, _ => none
  | _ => none

/-- Body of a JSON string literal, after the opening quote: processes escape
sequences and rejects raw control characters and invalid escapes, as Go's
decoder does. The fuel argument (structural, sized by the caller to the
remaining input length plus one, while every step consumes at least one
character) keeps the definition reducible by the kernel. -/
def parseStringBody : Nat → List Char → List Char → Option (String × List Char)
  | 0, _, _ => none
  | Nat.succ fuel, acc, cs =>
    match cs with
    | [] => none
    | c :: rest =>
      if c = '"' then some (String.mk acc.reverse, rest)
      else if c = '\\' then
        match rest with
        | [] => none
        | e :: r =>
          if e = '"' then parseStringBody fuel ('"' :: acc) r
          else if e = '\\' then parseStringBody fuel ('\\' :: acc) r
          else if e = '/' then parseStringBody fuel ('/' :: acc) r
          else if e = 'b' then parseStringBody fuel ('\x08' :: acc) r
          else if e = 'f' then parseStringBody fuel ('\x0C' :: acc) r
          else if e = 'n' then parseStringBody fuel ('\n' :: acc) r
          else if e = 'r' then parseStringBody fuel ('\r' :: acc) r
          else if e = 't' then parseStringBody fuel ('\t' :: acc) r
          else if e = 'u' then
            match parseUnicodeEscape r with
            | some (ch, r2) => parseStringBody fuel (ch :: acc) r2
            | none => none
          else none
      else if c.toNat < 0x20 then none
      else parseStringBody fuel (c :: acc) rest

/-- Decimal value of a digit run. -/
def digitsToNat (ds : List Char) : Nat :=
  ds.foldl (fun acc c => 10 * acc + c.toNat - 48) 0

/-- Optional fraction part of a JSON number: a dot must be followed by at
least one digit. -/
def parseFrac : List Char → Option (List Char × List Char)
  | '.' :: r =>
    let p := r.span Char.isDigit
    if p.1 = [] then none else some (p.1, p.2)
  | cs => some ([], cs)

/-- Optional exponent part of a JSON number. -/
def parseExp : List Char → Option (Int × List Char)
  | [] => some (0, [])
  | e :: r =>
    if e = 'e' ∨ e = 'E' then
      let p : Bool × List Char :=
        match r with
        | '+' :: r2 => (false, r2)
        | '-' :: r2 => (true, r2)
        | _ => (false, r)
      let q := p.2.span Char.isDigit
      if q.1 = [] then none
      else some (if p.1 then -(digitsToNat q.1 : Int) else (digitsToNat q.1 : Int), q.2)
    else some (0, e :: r)

/-- JSON number literal per the strict grammar (no leading zeros, no bare
dot, mandatory exponent digits), valued as an exact decimal. -/
def parseNumber (cs : List Char) : Option (JNum × List Char) :=
  let p : Bool × List Char :=
    match cs with
    | '-' :: r => (true, r)
    | _ => (false, cs)
  match p.2 with
  | [] => none
  | c :: _ =>
    if c.isDigit then
      let ip : List Char × List Char :=
        match p.2 with
        | '0' :: r => (['0'], r)
        | cs1 => cs1.span Char.isDigit
      match parseFrac ip.2 with
      | none => none
      | some (frac, rest2) =>
        match parseExp rest2 with
        | none => none
        | some (ex, rest3) =>
          let mant : Int := (digitsToNat (ip.1 ++ frac) : Int)
          let mant := if p.1 then -mant else mant
          let e10 : Int := ex - (frac.length : Int)
          some (⟨mant, e10⟩, rest3)
    else none

mutual

/-- One JSON value, by recursive descent; the fuel argument bounds the
recursion depth and is sized generously by `unmarshal`. -/
def parseValue : Nat → List Char → Option (Json × List Char)
  | 0, _ => none
  | Nat.succ fuel, cs =>
    match skipWs cs with
    | [] => none
    | c :: rest =>
      if c = '{' then
        match skipWs rest with
        | '}' :: r => some (Json.obj [], r)
        | _ =>
          match parseMembers fuel rest with
          | some (kvs, r) => some (Json.obj kvs, r)
          | none => none
      else if c = '[' then
        match skipWs rest with
        | ']' :: r => some (Json.arr [], r)
        | _ =>
          match parseElems fuel rest with
          | some (xs, r) => some (Json.arr xs, r)
          | none => none
      else if c = '"' then
        match parseStringBody (rest.length + 1) [] rest with
        | some (s, r) => some (Json.str s, r)
        | none => none
      else if c = 't' then
        match rest with
        | 'r' :: 'u' :: 'e' :: r => some (Json.bool true, r)
        | _ => none
      else if c = 'f' then
        match rest with
        | 'a' :: 'l' :: 's' :: 'e' :: r => some (Json.bool false, r)
        | _ => none
      else if c = 'n' then
        match rest with
        | 'u' :: 'l' :: 'l' :: r => some (Json.null, r)
        | _ => none
      else
        match parseNumber (c :: rest) with
        | some (q, r) => some (Json.num q, r)
        | none => none

/-- Members of a non-empty JSON object, up to and including the closing
brace. -/
def parseMembers : Nat → List Char → Option (List (String × Json) × List Char)
  | 0, _ => none
  | Nat.succ fuel, cs =>
    match skipWs cs with
    | '"' :: rest =>
      match parseStringBody (rest.length + 1) [] rest with
      | none => none
      | some (k, r1) =>
        match skipWs r1 with
        | ':' :: r2 =>
          match parseValue fuel r2 with
          | none => none
          | some (v, r3) =>
            match skipWs r3 with
            | ',' :: r4 =>
              match parseMembers fuel r4 with
              | some (kvs, r5) => some ((k, v) :: kvs, r5)
              | none => none
            | '}' :: r4 => some ([(k, v)], r4)
            | _ => none
        | _ => none
    | _ => none

/-- Elements of a non-empty JSON array, up to and including the closing
bracket. -/
def parseElems : Nat → List Char → Option (List Json × List Char)
  | 0, _ => none
  | Nat.succ fuel, cs =>
    match parseValue fuel cs with
    | none => none
    | some (v, r1) =>
      match skipWs r1 with
      | ',' :: r2 =>
        match parseElems fuel r2 with
        | some (xs, r3) => some (v :: xs, r3)
        | none => none
      | ']' :: r2 => some ([v], r2)
      | _ => none

end

/-- Embedding of `json.Unmarshal` into an `any` target: exactly one JSON
value, with surrounding whitespace, must account for the whole input. -/
def unmarshal (s : String) : Option Json :=
  match parseValue (2 * s.length + 8) s.toList with
  | some (v, rest) => if skipWs rest = [] then some v else none
  | none => none

/-- Rounding of a JSON number to an integer with ties to even, the rounding
of Go's `fmt` verb `%.0f`. -/
def roundHalfEven (n : JNum) : Int :=
  if 0 ≤ n.exp10 then n.mant * (10 : Int) ^ n.exp10.toNat
  else
    let d : Int := (10 : Int) ^ (-n.exp10).toNat
    let f := Int.fdiv n.mant d
    let r := n.mant - f * d
    if 2 * r < d then f
    else if d < 2 * r then f + 1
    else if f % 2 = 0 then f else f + 1

/-- Embedding of `fmt.Sprintf` with verb `%.0f` on a float64, on the exact
decimal model of JSON numbers (for values where float64 representation
error would cross a rounding boundary, or for negative zero, Go's output
can differ; no verified claim depends on such values). -/
def fmtF0 (n : JNum) : String := toString (roundHalfEven n)

/-- Go escaping of one character inside a JSON string literal
(`encoding/json` escapes the quote, backslash, control characters, and the
HTML-sensitive characters). -/
def escapeGoChar (c : Char) : List Char :=
  if c = '"' then ['\\', '"']
  else if c = '\\' then ['\\', '\\']
  else if c = '\n' then ['\\', 'n']
  else if c = '\r' then ['\\', 'r']
  else if c = '\t' then ['\\', 't']
  else if c = '<' then ("\\u003c").toList
  else if c = '>' then ("\\u003e").toList
  else if c = '&' then ("\\u0026").toList
  else if c.toNat < 0x20 then
    ("\\u00").toList ++ [Nat.digitChar (c.toNat / 16), Nat.digitChar (c.toNat % 16)]
  else if c = ' ' then ("\\u2028").toList
  else if c = ' ' then ("\\u2029").toList
  else [c]

/-- JSON string literal for a Go string, with Go's escaping. -/
def quoteGo (s : String) : String :=
  "\"" ++ String.mk (s.toList.map escapeGoChar).flatten ++ "\""

/-- Decimal rendering of a JSON number for re-serialization. Go prints the
shortest float64 round-trip form; the model prints the exact decimal
(identical for integral values, the only ones any verified claim
serializes). -/
def renderNum (n : JNum) : String :=
  if 0 ≤ n.exp10 then toString (n.mant * (10 : Int) ^ n.exp10.toNat)
  else
    let k := (-n.exp10).toNat
    let sign := if n.mant < 0 then "-" else ""
    let ds := (toString n.mant.natAbs).toList
    let ds := List.replicate (k + 1 - ds.length) '0' ++ ds
    sign ++ String.mk (ds.take (ds.length - k)) ++ "." ++ String.mk (ds.drop (ds.length - k))

mutual

/-- Embedding of `json.Marshal` on a decoded value (used when the source
re-serializes an inbound payload). Go renders a `map[string]any` with its
keys sorted and duplicates already collapsed; the model keeps document
order, which no verified claim observes. -/
def marshalJson : Json → String
  | .null => "null"
  | .bool b => cond b ("true") ("false")
  | .num n => renderNum n
  | .str s => quoteGo s
  | .arr xs => "[" ++ marshalElems xs ++ "]"
  | .obj kvs => "\x7b" ++ marshalFields kvs ++ "\x7d"

/-- Comma-separated rendering of array elements. -/
def marshalElems : List Json → String
  | [] => ""
  | [x] => marshalJson x
  | x :: xs => marshalJson x ++ "," ++ marshalElems xs

/-- Comma-separated rendering of object members. -/
def marshalFields : List (String × Json) → String
  | [] => ""
  | [kv] => quoteGo kv.1 ++ ":" ++ marshalJson kv.2
  | kv :: kvs => quoteGo kv.1 ++ ":" ++ marshalJson kv.2 ++ "," ++ marshalFields kvs

end

mutual

/-- Embedding of `fmt.Sprintf` with verb `%v` on a decoded JSON value, the
default arm of `asString` (reachable only for arrays and objects). Go
renders maps sorted by key and floats in shortest form; the model keeps
document order and exact decimals — the verified claims use only that a
container's rendering is non-empty. -/
def goFmtV : Json → String
  | .null => "<nil>"
  | .bool b => cond b ("true") ("false")
  | .num n => renderNum n
  | .str s => s
  | .arr xs => "[" ++ goFmtVElems xs ++ "]"
  | .obj kvs => "map[" ++ goFmtVFields kvs ++ "]"

/-- Space-separated `%v` rendering of array elements. -/
def goFmtVElems : List Json → String
  | [] => ""
  | [x] => goFmtV x
  | x :: xs => goFmtV x ++ " " ++ goFmtVElems xs

/-- Space-separated `key:value` rendering of map entries. -/
def goFmtVFields : List (String × Json) → String
  | [] => ""
  | [kv] => kv.1 ++ ":" ++ goFmtV kv.2
  | kv :: kvs => kv.1 ++ ":" ++ goFmtV kv.2 ++ " " ++ goFmtVFields kvs

end

/-- Embedding of the source's `asString` applied to a value read out of a
decoded `map[string]any`: `none` models a missing key (a nil interface).
The `json.Number`, `int64` and `int` arms of the source's type switch are
unreachable for such values (`encoding/json` without `UseNumber` produces
only `string`, `float64`, `bool`, `nil`, `[]any` and `map[string]any`). -/
def asString : Option Json → String
  | none => ""
  | some (.str s) => s
  | some (.num n) => fmtF0 n
  | some .null => ""
  | some (.bool b) => cond b ("true") ("false")
  | some (.arr xs) => goFmtV (.arr xs)
  | some (.obj kvs) => goFmtV (.obj kvs)

/-- First of the given keys whose value in the object is a string with
non-blank content, as scanned by the source's `payloadToContent`. -/
def firstStringKey (kvs : List (String × Json)) : List String → Option String
  | [] => none
  | k :: ks =>
    match lookupJson kvs k with
    | some (.str s) => if trimSpace s ≠ "" then some s else firstStringKey kvs ks
    | _ => firstStringKey kvs ks

/-- Embedding of `payloadToContent`: display content extracted from an
inbound payload value (`none` models an absent `payload` key). -/
def payloadToContent : Option Json → String
  | none => ""
  | some .null => ""
  | some (.str s) => s
  | some (.obj kvs) =>
    match firstStringKey kvs (["content", "message", "text", "result", "task"]) with
    | some s => s
    | none => marshalJson (.obj kvs)
  | some other => marshalJson other

/-- The protocol-relevant configuration fields of `config.WorkerWSConfig`
(the allow-list is treated as the abstract predicate the source calls). -/
structure WorkerWSConfig where
  address : String
  role : String
  name : String
  tags : List String
  authKey : String
  identityFile : String
  reconnectIntervalSec : Int
  pingIntervalSec : Int
deriving DecidableEq, Repr

/-- Embedding of `cleanTags`: each tag trimmed, empties dropped, order and
duplicates preserved. -/
def cleanTags (tags : List String) : List String :=
  (tags.map trimSpace).filter (fun t => t ≠ "")

/-- Embedding of `validateConfig`, with the source's error strings and check
order. -/
def validateConfig (cfg : WorkerWSConfig) : Except String Unit :=
  if trimSpace cfg.address = "" then .error ("worker_ws.address is required")
  else if trimSpace cfg.role = "" then .error ("worker_ws.role is required")
  else if cfg.role ≠ "employee" ∧ cfg.role ≠ "boss" then
    .error ("worker_ws.role must be boss or employee")
  else if trimSpace cfg.name = "" then .error ("worker_ws.name is required")
  else if cleanTags cfg.tags = [] then
    .error ("worker_ws.tags requires at least one non-empty tag")
  else .ok ()

/-- Embedding of `reconnectInterval`, in seconds (the source converts the
same count to a `time.Duration`). -/
def reconnectInterval (sec : Int) : Int :=
  if sec ≤ 0 then 0
  else if sec < 5 then 5
  else sec

/-- Embedding of `pingInterval`, in seconds. -/
def pingInterval (sec : Int) : Int :=
  let s := if sec ≤ 0 then 15 else sec
  if s < 5 then 5 else s

/-- Resolved send target: a single id (or broadcast marker) or an array of
ids, the two shapes `resolveTarget` can place in the outbound envelope. -/
inductive Target where
  | one (s : String)
  | many (ts : List String)
deriving DecidableEq, Repr

/-- Embedding of `strings.Split` on a one-character separator (a structural
stand-in for the library routine, which a kernel evaluation cannot
unfold). -/
def splitChar (sep : Char) : List Char → List (List Char)
  | [] => [[]]
  | c :: rest =>
    if c = sep then [] :: splitChar sep rest
    else
      match splitChar sep rest with
      | g :: gs => (c :: g) :: gs
      | [] => [[c]]

/-- The comma-split loop of `resolveTarget`: split, trim each part, drop
empties. -/
def splitTargets (c : String) : List String :=
  (((splitChar ',' c.toList).map String.mk).map trimSpace).filter (fun p => p ≠ "")

/-- Embedding of `resolveTarget`. -/
def resolveTarget (chatID : String) : Target :=
  let c := trimSpace chatID
  if c = "" then .one ("*")
  else if c = "*" || asciiEqualFold c ("all") then .one c
  else if c.toList.contains ',' then
    match splitTargets c with
    | [t] => .one t
    | [] => .one c
    | ts => .many ts
  else .one c

/-- Embedding of `buildPayload`. -/
def buildPayload (content : String) : Json :=
  let c := trimSpace content
  if c = "" then .obj [(("content" : String), .str (""))]
  else
    match unmarshal c with
    | some parsed => parsed
    | none => .obj [(("content" : String), .str c)]

/-- Embedding of `nextMsgID`, with the nanosecond clock a parameter. -/
def nextMsgID (now : Int) : String := "mimiclaw-" ++ toString now

/-- The identity pair issued by the peer (`workerWSIdentity`). -/
structure Identity where
  id : String
  key : String
deriving DecidableEq, Repr

/-- The invariant claimed of the held identity: fully absent or fully
present. -/
def identityInv (i : Identity) : Prop :=
  (i.id = "" ∧ i.key = "") ∨ (i.id ≠ "" ∧ i.key ≠ "")

/-- The mutable fields of `WorkerWSChannel` together with their observable
environment: `running` models the base channel's running flag, `cancelled`
the shared context's cancellation, `conn` the shared connection handle (a
handle is identified by number, mirroring Go pointer identity),
`closedConns` the handles on which `Close` has been called, `identity` the
in-memory identity and `diskFile` the content of the identity file (`none`
when absent). -/
structure ChannelState where
  running : Bool
  cancelled : Bool
  conn : Option Nat
  closedConns : List Nat
  identity : Identity
  diskFile : Option String
deriving DecidableEq, Repr

/-- Case-insensitive field matching used by `encoding/json` when decoding
into a struct: the last JSON key matching the field name wins. -/
def fieldLookup (kvs : List (String × Json)) (k : String) : Option Json :=
  kvs.foldl (fun acc kv => if asciiEqualFold kv.1 k then some kv.2 else acc) none

/-- Decoding of one string field of a struct target: absent or null leaves
the zero value, a non-string value is an unmarshalling error. -/
def getStrField (kvs : List (String × Json)) (k : String) : Option String :=
  match fieldLookup kvs k with
  | none => some ("")
  | some (.str s) => some s
  | some .null => some ("")
  | some _ => none

/-- Decoding of one bool field of a struct target. -/
def getBoolField (kvs : List (String × Json)) (k : String) : Option Bool :=
  match fieldLookup kvs k with
  | none => some false
  | some (.bool b) => some b
  | some .null => some false
  | some _ => none

/-- The anonymous base struct `awaitAuthOK` first decodes each frame
into. -/
structure AuthBase where
  type' : String
  code : String
  message : String
deriving DecidableEq, Repr

/-- Embedding of `json.Unmarshal` of a frame into the base struct: fails on
invalid JSON, a non-object top level, or a mismatched field type. -/
def decodeBase (data : String) : Option AuthBase :=
  match unmarshal data with
  | some (.obj kvs) => do
    let t ← getStrField kvs ("type")
    let c ← getStrField kvs ("code")
    let m ← getStrField kvs ("message")
    pure ⟨t, c, m⟩
  | some .null => some ⟨"", "", ""⟩
  | _ => none

/-- The `workerWSAuthOK` struct (its `type` field plays no further role and
is omitted). -/
structure AuthOK where
  id : String
  key : String
  role : String
  reconnected : Bool
deriving DecidableEq, Repr

/-- Embedding of `json.Unmarshal` of a frame into `workerWSAuthOK`. -/
def decodeAuthOK (data : String) : Option AuthOK :=
  match unmarshal data with
  | some (.obj kvs) => do
    let i ← getStrField kvs ("id")
    let k ← getStrField kvs ("key")
    let r ← getStrField kvs ("role")
    let rc ← getBoolField kvs ("reconnected")
    pure ⟨i, k, r, rc⟩
  | some .null => some ⟨"", "", "", false⟩
  | _ => none

/-- Failure modes of `awaitAuthOK`, one per `return nil, err` site of the
source (`readFailed` covers a read error or the expiry of the single
15-second deadline, modelled as the frame stream ending). -/
inductive AuthErr where
  | readFailed
  | invalidJson
  | parseAuthOkFailed
  | missingIdKey
  | rejected (message : String) (code : String)
deriving DecidableEq, Repr

/-- Embedding of `awaitAuthOK`: the frames readable before the auth window
closes, processed in order. -/
def awaitAuthOK : List String → Except AuthErr AuthOK
  | [] => .error .readFailed
  | data :: rest =>
    match decodeBase data with
    | none => .error .invalidJson
    | some base =>
      if base.type' = "auth_ok" then
        match decodeAuthOK data with
        | none => .error .parseAuthOkFailed
        | some ok =>
          if ok.id = "" ∨ ok.key = "" then .error .missingIdKey
          else .ok ok
      else if base.type' = "error" then
        .error (.rejected base.message (if base.code = "" then "auth_failed" else base.code))
      else awaitAuthOK rest

/-- Embedding of `json.Unmarshal` of the identity file into
`workerWSIdentity`. -/
def decodeIdentity (data : String) : Option Identity :=
  match unmarshal data with
  | some (.obj kvs) => do
    let i ← getStrField kvs ("id")
    let k ← getStrField kvs ("key")
    pure ⟨i, k⟩
  | some .null => some ⟨"", ""⟩
  | _ => none

/-- The file content `json.MarshalIndent(id, "", "  ")` writes for an
identity. -/
def encodeIdentity (i : Identity) : String :=
  "\x7b\n  \"id\": " ++ quoteGo i.id ++ ",\n  \"key\": " ++ quoteGo i.key ++ "\n\x7d"

/-- Embedding of `loadIdentity`: a missing file, a decode failure (the error
return the constructor ignores) and a partial identity all leave the
in-memory identity unchanged. -/
def loadIdentity (st : ChannelState) : ChannelState :=
  match st.diskFile with
  | none => st
  | some data =>
    match decodeIdentity data with
    | none => st
    | some idn =>
      if idn.id = "" ∨ idn.key = "" then st
      else { st with identity := idn }

/-- Embedding of `saveIdentity`: a no-op on a partial identity, otherwise
the encoded identity replaces the file content. -/
def saveIdentity (st : ChannelState) : ChannelState :=
  if st.identity.id = "" ∨ st.identity.key = "" then st
  else { st with diskFile := some (encodeIdentity st.identity) }

/-- Embedding of `buildAuthMessage`, with the wall clock a parameter. The
source builds a `map[string]any`; the association list keeps the insertion
order of the literal. -/
def buildAuthMessage (cfg : WorkerWSConfig) (idn : Identity) (now : Int) : Json :=
  let base : List (String × Json) :=
    [(("type" : String), .str ("auth")), (("role" : String), .str cfg.role),
     (("name" : String), .str cfg.name),
     (("tags" : String), .arr ((cleanTags cfg.tags).map .str)),
     (("meta" : String), .obj [(("client" : String), .str ("mimiclaw")),
       (("timestamp" : String), .num ⟨now, 0⟩)])]
  let base := if trimSpace cfg.authKey ≠ "" then
    base ++ [(("authkey" : String), .str cfg.authKey)] else base
  if idn.id ≠ "" ∧ idn.key ≠ "" then
    .obj (base ++ [(("identity" : String),
      .obj [(("id" : String), .str idn.id), (("key" : String), .str idn.key)])])
  else .obj base

/-- Commit step of `connectAndAuthenticate` after a successful handshake:
any previous handle is closed, the new one installed, the returned identity
stored and persisted. -/
def commitConnection (st : ChannelState) (newConn : Nat) (ok : AuthOK) : ChannelState :=
  let st1 :=
    match st.conn with
    | some old => { st with closedConns := old :: st.closedConns }
    | none => st
  saveIdentity { st1 with conn := some newConn, identity := ⟨ok.id, ok.key⟩ }

/-- Embedding of `clearConnIfCurrent`. -/
def clearConnIfCurrent (st : ChannelState) (conn : Nat) : ChannelState :=
  match st.conn with
  | some cur =>
    if cur = conn then { st with conn := none, closedConns := cur :: st.closedConns }
    else st
  | none => st

/-- Embedding of `Stop`. -/
def Stop (st : ChannelState) : ChannelState :=
  let st1 := { st with running := false, cancelled := true }
  match st1.conn with
  | some c => { st1 with conn := none, closedConns := c :: st1.closedConns }
  | none => st1

/-- The two synchronous failure modes of `Send`. -/
inductive SendError where
  | notRunning
  | notConnected
deriving DecidableEq, Repr

/-- The outbound envelope `Send` writes on success. -/
structure OutboundEnvelope where
  type' : String
  to' : Target
  payload : Json
  msgId : String
deriving Repr

/-- Embedding of `Send`: the running check, the envelope build, and
`sendJSON`'s connection check; a successful write delivers the envelope. -/
def Send (st : ChannelState) (chatID : String) (content : String) (now : Int) :
    Except SendError OutboundEnvelope :=
  if ¬ st.running then .error .notRunning
  else
    let req : OutboundEnvelope :=
      ⟨"message", resolveTarget chatID, buildPayload content, nextMsgID now⟩
    match st.conn with
    | none => .error .notConnected
    | some _ => .ok req

/-- One message delivered to the bus through `HandleMessage` (the external
collaborator's interface; attachments are always nil in this source). -/
structure Delivery where
  fromID : String
  displayName : String
  content : String
  metadata : List (String × String)
deriving DecidableEq, Repr

/-- Embedding of `handleInboundRoutedMessage` over the decoded object. The
allow-list check is the abstract predicate the source calls
(`IsAllowed`). -/
def handleInboundRoutedMessage (allowed : String → Bool) (st : ChannelState)
    (kvs : List (String × Json)) : ChannelState × Option Delivery :=
  let fromID0 := asString (lookupJson kvs ("from_id"))
  let fromID := if fromID0 = "" then "worker_ws" else fromID0
  if ¬ allowed fromID then (st, none)
  else
    let content0 := payloadToContent (lookupJson kvs ("payload"))
    let content := if content0 = "" then "\x7b\x7d" else content0
    let md : List (String × String) := []
    let md := if asString (lookupJson kvs ("msg_id")) ≠ "" then
      md ++ [(("msg_id" : String), asString (lookupJson kvs ("msg_id")))] else md
    let md := if asString (lookupJson kvs ("from_role")) ≠ "" then
      md ++ [(("from_role" : String), asString (lookupJson kvs ("from_role")))] else md
    let md := if asString (lookupJson kvs ("to")) ≠ "" then
      md ++ [(("to" : String), asString (lookupJson kvs ("to")))] else md
    let md := if asString (lookupJson kvs ("timestamp")) ≠ "" then
      md ++ [(("timestamp" : String), asString (lookupJson kvs ("timestamp")))] else md
    (st, some ⟨fromID, fromID, content, md⟩)

/-- Dispatch of one decoded server frame by its `type` discriminator (the
body of `handleServerMessage` after `json.Unmarshal` succeeded). -/
def dispatchServerMsg (allowed : String → Bool) (st : ChannelState)
    (kvs : List (String × Json)) : ChannelState × Option Delivery :=
  let msgType :=
    match lookupJson kvs ("type") with
    | some (.str s) => s
    | _ => ""
  if msgType = "pong" ∨ msgType = "health_report_ack" then (st, none)
  else if msgType = "delivery_ack" then (st, none)
  else if msgType = "error" then (st, none)
  else if msgType = "system" then (st, none)
  else if msgType = "message" then handleInboundRoutedMessage allowed st kvs
  else if msgType = "auth_ok" then
    let idOf := asString (lookupJson kvs ("id"))
    if idOf ≠ "" then
      let keyOf := asString (lookupJson kvs ("key"))
      (saveIdentity { st with identity := ⟨idOf, keyOf⟩ }, none)
    else (st, none)
  else (st, none)

/-- Embedding of `handleServerMessage`: an invalid JSON packet, or one whose
top level a `map[string]any` cannot hold, is ignored with a warning. -/
def handleServerMessage (allowed : String → Bool) (st : ChannelState)
    (data : String) : ChannelState × Option Delivery :=
  match unmarshal data with
  | some (.obj kvs) => dispatchServerMsg allowed st kvs
  | some .null => dispatchServerMsg allowed st []
  | _ => (st, none)

/-! Helper lemmas. -/

theorem toDigitsCore_length_le (b fuel n : Nat) (ds : List Char) :
    ds.length ≤ (Nat.toDigitsCore b fuel n ds).length := by
  induction fuel generalizing n ds with
  | zero => simp [Nat.toDigitsCore]
  | succ fuel ih =>
    unfold Nat.toDigitsCore
    dsimp only
    split
    · simp
    · exact le_trans (by simp) (ih (n / b) (Nat.digitChar (n % b) :: ds))

theorem natRepr_ne_empty (n : Nat) : Nat.repr n ≠ "" := by
  have h : 1 ≤ (Nat.toDigits 10 n).length := by
    unfold Nat.toDigits Nat.toDigitsCore
    dsimp only
    split
    · simp
    · exact le_trans (by simp) (toDigitsCore_length_le 10 n (n / 10) [Nat.digitChar (n % 10)])
  intro hc
  have h2 : (Nat.toDigits 10 n) = [] := by
    have := congrArg String.data hc
    simpa [Nat.repr, List.asString] using this
  rw [h2] at h
  simp at h

theorem toString_int_ne_empty (i : Int) : toString i ≠ "" := by
  show Int.repr i ≠ ""
  cases i with
  | ofNat m => exact natRepr_ne_empty m
  | negSucc m =>
    unfold Int.repr
    intro hc
    have := congrArg String.data hc
    simp [String.data] at this

theorem fmtF0_ne_empty (n : JNum) : fmtF0 n ≠ "" := by
  unfold fmtF0
  exact toString_int_ne_empty (roundHalfEven n)

/-- The disk content written by `saveIdentity` is either untouched or a full
identity's encoding. -/
theorem saveIdentity_disk (st : ChannelState) :
    (saveIdentity st).diskFile = st.diskFile ∨
      ∃ i : Identity, (saveIdentity st).diskFile = some (encodeIdentity i) ∧
        i.id ≠ "" ∧ i.key ≠ "" := by
  unfold saveIdentity
  split_ifs with h
  · exact Or.inl rfl
  · push_neg at h
    exact Or.inr ⟨st.identity, rfl, h.1, h.2⟩

/-- The routed-message handler never mutates channel state. -/
theorem handleInboundRoutedMessage_state (allowed : String → Bool) (st : ChannelState)
    (kvs : List (String × Json)) :
    (handleInboundRoutedMessage allowed st kvs).1 = st := by
  unfold handleInboundRoutedMessage
  by_cases h : allowed (if asString (lookupJson kvs ("from_id")) = "" then "worker_ws"
      else asString (lookupJson kvs ("from_id"))) = true <;>
    simp [h]

/-! Claim theorems. -/

/-- C3: `clearConnIfCurrent(conn)` closes the held connection and replaces
it with none exactly when the held handle is identity-equal to `conn`;
when the held handle is a different connection or absent, the state is left
completely unchanged. -/
theorem C3_clearConnIfCurrent (st : ChannelState) (conn : Nat) :
    (st.conn = some conn →
      clearConnIfCurrent st conn =
        { st with conn := none, closedConns := conn :: st.closedConns }) ∧
    (st.conn ≠ some conn → clearConnIfCurrent st conn = st) := by
  constructor
  · intro h
    unfold clearConnIfCurrent
    rw [h]
    simp
  · intro h
    unfold clearConnIfCurrent
    cases hc : st.conn with
    | none => rfl
    | some cur =>
      rw [hc] at h
      have hne : cur ≠ conn := by
        intro he
        exact h (by rw [he])
      simp [hne]

/-- Witness for C3 at a concrete state holding connection 7: clearing
connection 7 evicts it, clearing connection 9 changes nothing. -/
theorem C3_witness :
    clearConnIfCurrent ⟨true, false, some 7, [], ⟨"", ""⟩, none⟩ 7 =
      ⟨true, false, none, [7], ⟨"", ""⟩, none⟩ ∧
    clearConnIfCurrent ⟨true, false, some 7, [], ⟨"", ""⟩, none⟩ 9 =
      ⟨true, false, some 7, [], ⟨"", ""⟩, none⟩ := by
  exact ⟨(C3_clearConnIfCurrent ⟨true, false, some 7, [], ⟨"", ""⟩, none⟩ 7).1 rfl,
    (C3_clearConnIfCurrent ⟨true, false, some 7, [], ⟨"", ""⟩, none⟩ 9).2 (by simp)⟩

/-- C5: `Send` fails synchronously with the not-running error whenever the
channel is not running, and with the not-connected error whenever it is
running but no connection is held; the error is the function's return value
(nothing is retried). -/
theorem C5_send (st : ChannelState) (chatID content : String) (now : Int) :
    (st.running = false → Send st chatID content now = .error .notRunning) ∧
    (st.running = true → st.conn = none → Send st chatID content now = .error .notConnected) := by
  constructor
  · intro h
    unfold Send
    simp [h]
  · intro hr hc
    unfold Send
    simp [hr, hc]

/-- Witness for C5: a stopped channel and a running but connectionless
channel each fail with the matching error. -/
theorem C5_witness :
    Send ⟨false, false, none, [], ⟨"", ""⟩, none⟩ ("x") ("hi") 0 = .error .notRunning ∧
    Send ⟨true, false, none, [], ⟨"", ""⟩, none⟩ ("x") ("hi") 0 = .error .notConnected := by
  exact ⟨(C5_send ⟨false, false, none, [], ⟨"", ""⟩, none⟩ ("x") ("hi") 0).1 rfl,
    (C5_send ⟨true, false, none, [], ⟨"", ""⟩, none⟩ ("x") ("hi") 0).2 rfl rfl⟩

/-- C7: `validateConfig` succeeds exactly when the address is non-blank, the
role is employee or boss, the name is non-blank and at least one tag
survives trimming. -/
theorem C7_validateConfig (cfg : WorkerWSConfig) :
    validateConfig cfg = .ok () ↔
      (trimSpace cfg.address ≠ "" ∧ (cfg.role = "employee" ∨ cfg.role = "boss") ∧
        trimSpace cfg.name ≠ "" ∧ cleanTags cfg.tags ≠ []) := by
  unfold validateConfig
  split_ifs with h1 h2 h3 h4 h5
  · simp [h1]
  · constructor
    · intro h
      simp at h
    · intro h
      rcases h.2.1 with hr | hr <;> rw [hr] at h2 <;> exact absurd h2 (by decide)
  · constructor
    · intro h
      simp at h
    · intro h
      rcases h.2.1 with hr | hr
      · exact absurd hr h3.1
      · exact absurd hr h3.2
  · simp [h4]
  · simp [h5]
  · push_neg at h3
    constructor
    · intro _
      refine ⟨h1, ?_, h4, h5⟩
      by_cases he : cfg.role = "employee"
      · exact Or.inl he
      · exact Or.inr (h3 he)
    · intro _
      rfl

/-- C8: the reconnect interval is 0 (reconnection disabled) for configured
values at most 0 and otherwise floored at 5; the ping interval defaults to
15 for values at most 0 and is otherwise floored at 5, so it always
resolves to at least 5 seconds. -/
theorem C8_intervals (sec : Int) :
    reconnectInterval sec = (if sec ≤ 0 then 0 else max sec 5) ∧
    pingInterval sec = (if sec ≤ 0 then 15 else max sec 5) ∧
    5 ≤ pingInterval sec := by
  unfold reconnectInterval pingInterval
  split_ifs <;> simp_all <;> omega

/-- C9: `Stop` leaves the in-memory identity and the identity file exactly
as they were (it only clears the running flag, raises cancellation and
closes/clears the connection), so the auth message a later connection
attempt builds is unchanged. -/
theorem C9_stop_frame (st : ChannelState) (cfg : WorkerWSConfig) (now : Int) :
    (Stop st).identity = st.identity ∧
    (Stop st).diskFile = st.diskFile ∧
    (Stop st).running = false ∧
    (Stop st).cancelled = true ∧
    (Stop st).conn = none ∧
    buildAuthMessage cfg (Stop st).identity now = buildAuthMessage cfg st.identity now := by
  unfold Stop
  cases h : st.conn <;> simp [h]

/-- C2 counterexample: on JSON-parse failure `buildPayload` wraps the
trimmed string, not the original input string, so the claimed result is
wrong for an input with surrounding whitespace. -/
theorem C2_counterexample :
    buildPayload ("  hello  ") ≠ Json.obj [(("content" : String), Json.str ("  hello  "))] := by
  have h : buildPayload ("  hello  ") = Json.obj [(("content" : String), Json.str ("hello"))] := by
    rfl
  rw [h]
  intro hc
  simp at hc

/-- C2 as amended: `buildPayload` returns the empty-content object when the
content trims to empty, the parsed structure verbatim when the trimmed
content parses as strict JSON, and otherwise wraps the TRIMMED string (the
original string when it carries no surrounding whitespace); the three
concrete examples of the claim hold as stated. -/
theorem C2_buildPayload :
    buildPayload ("\x7b\"task\":\"analyze\"\x7d") =
      Json.obj [(("task" : String), Json.str ("analyze"))] ∧
    buildPayload ("hello") = Json.obj [(("content" : String), Json.str ("hello"))] ∧
    buildPayload ("") = Json.obj [(("content" : String), Json.str (""))] ∧
    (∀ s, trimSpace s = "" → buildPayload s = Json.obj [(("content" : String), Json.str (""))]) ∧
    (∀ s v, unmarshal (trimSpace s) = some v → trimSpace s ≠ "" → buildPayload s = v) ∧
    (∀ s, unmarshal (trimSpace s) = none → trimSpace s ≠ "" →
      buildPayload s = Json.obj [(("content" : String), Json.str (trimSpace s))]) := by
  refine ⟨by rfl, by rfl, by rfl, ?_, ?_, ?_⟩
  · intro s h
    unfold buildPayload
    simp [h]
  · intro s v hu hne
    unfold buildPayload
    simp [hne, hu]
  · intro s hu hne
    unfold buildPayload
    simp [hne, hu]

/-- Witness for C2 at concrete inputs: a whitespace-padded non-JSON input
wraps its trimmed form, and a whitespace-padded JSON input parses to the
value itself. -/
theorem C2_witness :
    buildPayload ("  hello  ") = Json.obj [(("content" : String), Json.str ("hello"))] ∧
    buildPayload (" 123 ") = Json.num ⟨123, 0⟩ := by
  exact ⟨C2_buildPayload.2.2.2.2.2 ("  hello  ") rfl (by decide),
    C2_buildPayload.2.2.2.2.1 (" 123 ") (Json.num ⟨123, 0⟩) rfl (by decide)⟩

/-- C6: target resolution — empty input broadcasts as "*"; "*" or a case
variant of "all" (after trimming) passes through; with a comma the input is
split, trimmed and de-emptied, one survivor collapsing to a scalar, two or
more forming an array, none falling back to the trimmed input; anything
else resolves to the trimmed input. -/
theorem C6_resolveTarget (chatID : String) :
    (trimSpace chatID = "" → resolveTarget chatID = .one ("*")) ∧
    (trimSpace chatID ≠ "" →
      (trimSpace chatID = "*" ∨ asciiEqualFold (trimSpace chatID) ("all") = true) →
      resolveTarget chatID = .one (trimSpace chatID)) ∧
    (trimSpace chatID ≠ "" → trimSpace chatID ≠ "*" →
      asciiEqualFold (trimSpace chatID) ("all") = false →
      (trimSpace chatID).toList.contains ',' = true →
      (splitTargets (trimSpace chatID) = [] → resolveTarget chatID = .one (trimSpace chatID)) ∧
      (∀ t, splitTargets (trimSpace chatID) = [t] → resolveTarget chatID = .one t) ∧
      (∀ t1 t2 ts, splitTargets (trimSpace chatID) = t1 :: t2 :: ts →
        resolveTarget chatID = .many (t1 :: t2 :: ts))) ∧
    (trimSpace chatID ≠ "" → trimSpace chatID ≠ "*" →
      asciiEqualFold (trimSpace chatID) ("all") = false →
      (trimSpace chatID).toList.contains ',' = false →
      resolveTarget chatID = .one (trimSpace chatID)) := by
  refine ⟨?_, ?_, ?_, ?_⟩
  · intro h
    unfold resolveTarget
    simp [h]
  · intro hne hor
    unfold resolveTarget
    rcases hor with h | h <;> simp [hne, h]
  · intro hne hstar hfold hcomma
    have hc : ',' ∈ (trimSpace chatID).data := by simpa using hcomma
    refine ⟨?_, ?_, ?_⟩
    · intro hsplit
      unfold resolveTarget
      simp [hne, hstar, hfold, hc, hsplit]
    · intro t hsplit
      unfold resolveTarget
      simp [hne, hstar, hfold, hc, hsplit]
    · intro t1 t2 ts hsplit
      unfold resolveTarget
      simp [hne, hstar, hfold, hc, hsplit]
  · intro hne hstar hfold hcomma
    have hc : ',' ∉ (trimSpace chatID).data := by simpa using hcomma
    unfold resolveTarget
    simp [hne, hstar, hfold, hc]

/-- Witness for C6 at the claim's five concrete inputs. -/
theorem C6_witness :
    resolveTarget ("") = .one ("*") ∧
    resolveTarget ("all") = .one ("all") ∧
    resolveTarget ("a,b") = .many ["a", "b"] ∧
    resolveTarget ("a") = .one ("a") ∧
    resolveTarget ("a, ,b") = .many ["a", "b"] := by
  refine ⟨(C6_resolveTarget ("")).1 rfl, ?_, ?_, ?_, ?_⟩
  · exact (C6_resolveTarget ("all")).2.1 (by decide) (Or.inr (by decide))
  · exact (C6_resolveTarget ("a,b")).2.2.1 (by decide) (by decide) (by decide) (by decide)
      |>.2.2 ("a") ("b") [] (by decide)
  · exact (C6_resolveTarget ("a")).2.2.2 (by decide) (by decide) (by decide) (by decide)
  · exact (C6_resolveTarget ("a, ,b")).2.2.1 (by decide) (by decide) (by decide) (by decide)
      |>.2.2 ("a") ("b") [] (by decide)

/-- C4: during the auth wait, a frame decoding with a type other than
auth_ok or error is ignored and the wait continues on the remaining frames;
an error frame fails the handshake with the peer's message and its code
defaulted to auth_failed when empty; an auth_ok frame fails with a protocol
error when id or key is empty and succeeds with the returned identity when
both are non-empty; an undecodable frame fails the handshake, as does
exhausting the read window. -/
theorem C4_awaitAuthOK (data : String) (rest : List String) :
    (decodeBase data = none → awaitAuthOK (data :: rest) = .error .invalidJson) ∧
    (∀ b, decodeBase data = some b → b.type' ≠ "auth_ok" → b.type' ≠ "error" →
      awaitAuthOK (data :: rest) = awaitAuthOK rest) ∧
    (∀ b, decodeBase data = some b → b.type' = "error" →
      awaitAuthOK (data :: rest) =
        .error (.rejected b.message (if b.code = "" then "auth_failed" else b.code))) ∧
    (∀ b, decodeBase data = some b → b.type' = "auth_ok" →
      (decodeAuthOK data = none → awaitAuthOK (data :: rest) = .error .parseAuthOkFailed) ∧
      (∀ ok, decodeAuthOK data = some ok →
        ((ok.id = "" ∨ ok.key = "") → awaitAuthOK (data :: rest) = .error .missingIdKey) ∧
        (ok.id ≠ "" → ok.key ≠ "" → awaitAuthOK (data :: rest) = .ok ok))) ∧
    awaitAuthOK [] = .error .readFailed := by
  refine ⟨?_, ?_, ?_, ?_, rfl⟩
  · intro h
    unfold awaitAuthOK
    simp [h]
  · intro b hb h1 h2
    conv_lhs => unfold awaitAuthOK
    simp [hb, h1, h2]
  · intro b hb h
    unfold awaitAuthOK
    simp [hb, h]
  · intro b hb h
    constructor
    · intro hd
      unfold awaitAuthOK
      simp [hb, h, hd]
    · intro ok hok
      constructor
      · intro hor
        unfold awaitAuthOK
        simp only [hb, h]
        simp [hok, if_pos hor]
      · intro h1 h2
        unfold awaitAuthOK
        simp [hb, h, hok, h1, h2]

/-- Witness for C4 on concrete frames: a pong frame is skipped, a complete
auth_ok frame succeeds, an error frame without a code is rejected with the
default code, an auth_ok frame missing its key fails the protocol check,
and junk fails the parse. -/
theorem C4_witness :
    awaitAuthOK [("\x7b\"type\":\"pong\"\x7d"),
        ("\x7b\"type\":\"auth_ok\",\"id\":\"w1\",\"key\":\"k1\"\x7d")] =
      awaitAuthOK [("\x7b\"type\":\"auth_ok\",\"id\":\"w1\",\"key\":\"k1\"\x7d")] ∧
    awaitAuthOK [("\x7b\"type\":\"auth_ok\",\"id\":\"w1\",\"key\":\"k1\"\x7d")] =
      .ok ⟨"w1", "k1", "", false⟩ ∧
    awaitAuthOK [("\x7b\"type\":\"error\",\"message\":\"bad\"\x7d")] =
      .error (.rejected ("bad") ("auth_failed")) ∧
    awaitAuthOK [("\x7b\"type\":\"auth_ok\",\"id\":\"w1\"\x7d")] = .error .missingIdKey ∧
    awaitAuthOK [("not json")] = .error .invalidJson := by
  refine ⟨?_, ?_, ?_, ?_, ?_⟩
  · exact (C4_awaitAuthOK ("\x7b\"type\":\"pong\"\x7d")
      [("\x7b\"type\":\"auth_ok\",\"id\":\"w1\",\"key\":\"k1\"\x7d")]).2.1
      ⟨"pong", "", ""⟩ rfl (by decide) (by decide)
  · exact (((C4_awaitAuthOK ("\x7b\"type\":\"auth_ok\",\"id\":\"w1\",\"key\":\"k1\"\x7d")
      []).2.2.2.1 ⟨"auth_ok", "", ""⟩ rfl rfl).2 ⟨"w1", "k1", "", false⟩ rfl).2
      (by decide) (by decide)
  · exact (C4_awaitAuthOK ("\x7b\"type\":\"error\",\"message\":\"bad\"\x7d") []).2.2.1
      ⟨"error", "", "bad"⟩ rfl rfl
  · exact (((C4_awaitAuthOK ("\x7b\"type\":\"auth_ok\",\"id\":\"w1\"\x7d")
      []).2.2.2.1 ⟨"auth_ok", "", ""⟩ rfl rfl).2 ⟨"w1", "", "", false⟩ rfl).1
      (Or.inr rfl)
  · exact (C4_awaitAuthOK ("not json") []).1 rfl

/-- A successful auth wait only ever returns an identity with both fields
non-empty (the source rejects `auth_ok` frames missing either). -/
theorem awaitAuthOK_ok_nonempty (frames : List String) (ok : AuthOK)
    (h : awaitAuthOK frames = .ok ok) : ok.id ≠ "" ∧ ok.key ≠ "" := by
  induction frames with
  | nil => simp [awaitAuthOK] at h
  | cons data rest ih =>
    unfold awaitAuthOK at h
    cases hb : decodeBase data with
    | none => rw [hb] at h; simp at h
    | some b =>
      rw [hb] at h
      dsimp only at h
      by_cases h1 : b.type' = "auth_ok"
      · rw [if_pos h1] at h
        cases hok : decodeAuthOK data with
        | none => rw [hok] at h; simp at h
        | some ok2 =>
          rw [hok] at h
          dsimp only at h
          by_cases h2 : ok2.id = "" ∨ ok2.key = ""
          · rw [if_pos h2] at h
            simp at h
          · rw [if_neg h2] at h
            push_neg at h2
            simp only [Except.ok.injEq] at h
            rw [← h]
            exact h2
      · rw [if_neg h1] at h
        by_cases h2 : b.type' = "error"
        · rw [if_pos h2] at h
          simp at h
        · rw [if_neg h2] at h
          exact ih h

/-- The frame dispatcher leaves the state unchanged except possibly through
the unsolicited auth_ok arm, which stores `asString` of the frame's id and
key and runs `saveIdentity`. -/
theorem dispatchServerMsg_state (allowed : String → Bool) (st : ChannelState)
    (kvs : List (String × Json)) :
    (dispatchServerMsg allowed st kvs).1 = st ∨
    (dispatchServerMsg allowed st kvs).1 =
      saveIdentity { st with identity :=
        ⟨asString (lookupJson kvs ("id")), asString (lookupJson kvs ("key"))⟩ } := by
  simp only [dispatchServerMsg]
  split_ifs <;> simp [handleInboundRoutedMessage_state]

/-- No run of `handleServerMessage` writes anything to the identity file
other than the encoding of a full identity. -/
theorem handleServerMessage_disk (allowed : String → Bool) (st : ChannelState)
    (data : String) :
    (handleServerMessage allowed st data).1.diskFile = st.diskFile ∨
      ∃ i : Identity, (handleServerMessage allowed st data).1.diskFile =
        some (encodeIdentity i) ∧ i.id ≠ "" ∧ i.key ≠ "" := by
  unfold handleServerMessage
  cases hu : unmarshal data with
  | none => exact Or.inl rfl
  | some j =>
    cases j with
    | obj kvs =>
      rcases dispatchServerMsg_state allowed st kvs with h | h
      · exact Or.inl (by rw [h])
      · rw [h]
        rcases saveIdentity_disk { st with identity :=
            ⟨asString (lookupJson kvs ("id")), asString (lookupJson kvs ("key"))⟩ } with h2 | h2
        · exact Or.inl h2
        · exact Or.inr h2
    | null =>
      rcases dispatchServerMsg_state allowed st [] with h | h
      · exact Or.inl (by rw [h])
      · rw [h]
        rcases saveIdentity_disk { st with identity :=
            ⟨asString (lookupJson [] ("id")), asString (lookupJson [] ("key"))⟩ } with h2 | h2
        · exact Or.inl h2
        · exact Or.inr h2
    | bool b => exact Or.inl rfl
    | num n => exact Or.inl rfl
    | str s => exact Or.inl rfl
    | arr xs => exact Or.inl rfl

/-- C1 counterexample: the unsolicited auth_ok handler checks only the id,
so a frame carrying a non-empty id and no key makes it store the partial
in-memory identity ⟨"w1", ""⟩, violating the claimed invariant on an
initially-invariant state. -/
theorem C1_counterexample :
    identityInv ((⟨true, false, some 1, [], ⟨"", ""⟩, none⟩ : ChannelState).identity) ∧
    (handleServerMessage (fun _ => true)
        ⟨true, false, some 1, [], ⟨"", ""⟩, none⟩
        ("\x7b\"type\":\"auth_ok\",\"id\":\"w1\"\x7d")).1.identity = ⟨"w1", ""⟩ ∧
    ¬ identityInv (⟨"w1", ""⟩ : Identity) := by
  refine ⟨Or.inl ⟨rfl, rfl⟩, rfl, ?_⟩
  intro h
  rcases h with ⟨h1, _⟩ | ⟨_, h2⟩
  · exact absurd h1 (by decide)
  · exact h2 rfl

/-- C1 as amended: the identity invariant (fully absent or fully present)
is preserved by loading (a partial on-disk identity is discarded), by
saving (a no-op on a partial identity, and only full identities are ever
encoded to disk — including through every server-frame handler), by the
auth message build (the identity field is included exactly when both fields
are non-empty) and by the handshake commit (a successful auth wait always
returns both fields non-empty); only the unsolicited auth_ok handler can
put a partial identity in memory, and even then nothing partial reaches
the disk or the wire. -/
theorem C1_identity_invariant :
    (∀ st : ChannelState, identityInv st.identity → identityInv (loadIdentity st).identity) ∧
    (∀ (st : ChannelState) (data : String) (i : Identity), st.diskFile = some data →
      decodeIdentity data = some i → (i.id = "" ∨ i.key = "") → loadIdentity st = st) ∧
    (∀ st : ChannelState, (st.identity.id = "" ∨ st.identity.key = "") →
      saveIdentity st = st) ∧
    (∀ st : ChannelState, (saveIdentity st).diskFile = st.diskFile ∨
      ∃ i : Identity, (saveIdentity st).diskFile = some (encodeIdentity i) ∧
        i.id ≠ "" ∧ i.key ≠ "") ∧
    (∀ (cfg : WorkerWSConfig) (idn : Identity) (now : Int), ∃ kvs,
      buildAuthMessage cfg idn now = .obj kvs ∧
      lookupJson kvs ("identity") =
        (if idn.id ≠ "" ∧ idn.key ≠ "" then
          some (.obj [(("id" : String), .str idn.id), (("key" : String), .str idn.key)])
        else none)) ∧
    (∀ (frames : List String) (ok : AuthOK), awaitAuthOK frames = .ok ok →
      ok.id ≠ "" ∧ ok.key ≠ "") ∧
    (∀ (st : ChannelState) (newConn : Nat) (ok : AuthOK), ok.id ≠ "" → ok.key ≠ "" →
      identityInv (commitConnection st newConn ok).identity) ∧
    (∀ (allowed : String → Bool) (st : ChannelState) (data : String),
      (handleServerMessage allowed st data).1.diskFile = st.diskFile ∨
      ∃ i : Identity, (handleServerMessage allowed st data).1.diskFile =
        some (encodeIdentity i) ∧ i.id ≠ "" ∧ i.key ≠ "") := by
  refine ⟨?_, ?_, ?_, saveIdentity_disk, ?_, awaitAuthOK_ok_nonempty, ?_,
    handleServerMessage_disk⟩
  · intro st h
    rcases hd : st.diskFile with _ | data
    · simpa [loadIdentity, hd] using h
    · rcases hi : decodeIdentity data with _ | idn
      · simpa [loadIdentity, hd, hi] using h
      · by_cases hpart : idn.id = "" ∨ idn.key = ""
        · simpa [loadIdentity, hd, hi, hpart] using h
        · push_neg at hpart
          have hgoal : (loadIdentity st).identity = idn := by
            simp [loadIdentity, hd, hi, hpart.1, hpart.2]
          rw [hgoal]
          exact Or.inr hpart
  · intro st data i h1 h2 h3
    simp [loadIdentity, h1, h2, h3]
  · intro st h
    unfold saveIdentity
    rw [if_pos h]
  · intro cfg idn now
    unfold buildAuthMessage
    by_cases hid : idn.id ≠ "" ∧ idn.key ≠ "" <;>
      by_cases hak : trimSpace cfg.authKey ≠ "" <;>
        simp [hid, hak, lookupJson]
  · intro st newConn ok h1 h2
    have hgoal : (commitConnection st newConn ok).identity = ⟨ok.id, ok.key⟩ := by
      rcases hc : st.conn with _ | old
      · simp only [commitConnection, saveIdentity, hc]
        split_ifs <;> rfl
      · simp only [commitConnection, saveIdentity, hc]
        split_ifs <;> rfl
    rw [hgoal]
    exact Or.inr ⟨h1, h2⟩

/-- Witness for C1 at concrete values: saving a partial identity is a
no-op, loading a partial on-disk identity leaves the state untouched, a
successful concrete auth wait yields non-empty fields, and committing it
restores the invariant. -/
theorem C1_witness :
    saveIdentity ⟨true, false, none, [], ⟨"w1", ""⟩, none⟩ =
      ⟨true, false, none, [], ⟨"w1", ""⟩, none⟩ ∧
    loadIdentity ⟨true, false, none, [], ⟨"", ""⟩, some ("\x7b\"id\":\"w1\"\x7d")⟩ =
      ⟨true, false, none, [], ⟨"", ""⟩, some ("\x7b\"id\":\"w1\"\x7d")⟩ ∧
    (("w1" : String) ≠ "" ∧ ("k1" : String) ≠ "") ∧
    identityInv (commitConnection ⟨true, false, some 1, [], ⟨"", ""⟩, none⟩ 2
      ⟨"w1", "k1", "", false⟩).identity := by
  refine ⟨?_, ?_, ?_, ?_⟩
  · exact C1_identity_invariant.2.2.1 ⟨true, false, none, [], ⟨"w1", ""⟩, none⟩ (Or.inr rfl)
  · exact C1_identity_invariant.2.1 ⟨true, false, none, [], ⟨"", ""⟩,
      some ("\x7b\"id\":\"w1\"\x7d")⟩ ("\x7b\"id\":\"w1\"\x7d") ⟨"w1", ""⟩ rfl rfl
      (Or.inr rfl)
  · exact C1_identity_invariant.2.2.2.2.2.1
      [("\x7b\"type\":\"auth_ok\",\"id\":\"w1\",\"key\":\"k1\"\x7d")]
      ⟨"w1", "k1", "", false⟩ rfl
  · exact C1_identity_invariant.2.2.2.2.2.2.1 ⟨true, false, some 1, [], ⟨"", ""⟩, none⟩ 2
      ⟨"w1", "k1", "", false⟩ (by decide) (by decide)

/-- C10: an allowed inbound routed message is delivered with metadata equal
to the four fields msg_id/from_role/to/timestamp coerced through `asString`
and filtered for non-emptiness — so a metadata key is omitted exactly when
the field is absent, JSON null, or coerces to the empty string, while a
JSON number always coerces to its decimal rendering (integral rounding of
the float64, never empty) and is included. -/
theorem C10_metadata (allowed : String → Bool) (st : ChannelState)
    (kvs : List (String × Json))
    (h : allowed (if asString (lookupJson kvs ("from_id")) = "" then "worker_ws"
      else asString (lookupJson kvs ("from_id"))) = true) :
    (∃ d : Delivery, (handleInboundRoutedMessage allowed st kvs).2 = some d ∧
      d.metadata = ([(("msg_id" : String), asString (lookupJson kvs ("msg_id"))),
        (("from_role" : String), asString (lookupJson kvs ("from_role"))),
        (("to" : String), asString (lookupJson kvs ("to"))),
        (("timestamp" : String), asString (lookupJson kvs ("timestamp")))].filter
          (fun p => p.2 ≠ ""))) ∧
    (∀ n : JNum, asString (some (Json.num n)) = fmtF0 n ∧ fmtF0 n ≠ "") ∧
    asString none = "" ∧ asString (some Json.null) = "" := by
  refine ⟨?_, fun n => ⟨rfl, fmtF0_ne_empty n⟩, rfl, rfl⟩
  unfold handleInboundRoutedMessage
  simp only [h, not_true_eq_false, if_false]
  refine ⟨_, rfl, ?_⟩
  by_cases c1 : asString (lookupJson kvs ("msg_id")) ≠ "" <;>
    by_cases c2 : asString (lookupJson kvs ("from_role")) ≠ "" <;>
      by_cases c3 : asString (lookupJson kvs ("to")) ≠ "" <;>
        by_cases c4 : asString (lookupJson kvs ("timestamp")) ≠ "" <;>
          simp [c1, c2, c3, c4]

/-- Witness for C10: a routed message whose msg_id and timestamp arrive as
JSON numbers is delivered with those fields coerced to decimal strings,
while the absent from_role and to keys are omitted. -/
theorem C10_witness :
    ∃ d : Delivery, (handleInboundRoutedMessage (fun _ => true)
        ⟨true, false, some 1, [], ⟨"", ""⟩, none⟩
        [(("type" : String), Json.str ("message")),
         (("from_id" : String), Json.str ("boss-1")),
         (("msg_id" : String), Json.num ⟨42, 0⟩),
         (("payload" : String), Json.str ("hi")),
         (("timestamp" : String), Json.num ⟨17, 0⟩)]).2 = some d ∧
      d.metadata = [(("msg_id" : String), ("42" : String)),
        (("timestamp" : String), ("17" : String))] := by
  obtain ⟨⟨d, hd, hm⟩, _⟩ := C10_metadata (fun _ => true)
    ⟨true, false, some 1, [], ⟨"", ""⟩, none⟩
    [(("type" : String), Json.str ("message")),
     (("from_id" : String), Json.str ("boss-1")),
     (("msg_id" : String), Json.num ⟨42, 0⟩),
     (("payload" : String), Json.str ("hi")),
     (("timestamp" : String), Json.num ⟨17, 0⟩)] rfl
  exact ⟨d, hd, by rw [hm]; rfl⟩

end WorkerWS
